import Mathlib

/-!
Shallow embedding of the MCP task-lifecycle E2E harness
(tests/mcp_task_lifecycle_e2e.py): the stdio JSON-RPC transport
(McpClient.send / recv / call / tool_call), the bootstrap probe loop of
McpClient.__init__, the stderr drain thread, the teardown sequence of
McpClient.close together with the try/finally of main(), and the verdict
accumulation and exit-code logic (log_pass, log_fail, sys.exit).

Modelling conventions:
* bytes are natural numbers below 256, byte strings are lists of bytes;
* the nondeterministic environment seen by one recv call (select
  readiness, os.read chunks, proc.poll results) is an explicit finite
  trace of IoEvent values, one per loop iteration;
* an idle select slice costs one second of the 30 second deadline, data
  chunks are processed instantaneously; an exhausted trace behaves like
  an endless sequence of idle probes, hence a timeout;
* json.loads is an explicit function parameter named loads (it is Python
  library code, not repository code); bytes.decode() is an executable
  strict UTF-8 decoder returning none exactly on a UnicodeDecodeError,
  and decode(errors="replace") is a permissive total variant;
* a raised Python exception is an explicit error value of the result
  type; an exception with no handler on the path is a distinguished
  constructor (for example RecvResult.decodeError for the
  UnicodeDecodeError that no except clause of recv catches).
-/

/-- Last `n` elements of a list: models the Python slice `xs[-n:]`. -/
def lastN (n : Nat) (xs : List α) : List α := xs.drop (xs.length - n)

/-- ASCII whitespace bytes, the ones removed by `bytes.strip()`. -/
def isWsByte (b : Nat) : Bool :=
  b = 32 || b = 9 || b = 10 || b = 13 || b = 11 || b = 12

/-- Models `bytes.strip()`: drop ASCII whitespace from both ends. -/
def stripBytes (bs : List Nat) : List Nat :=
  (((bs.dropWhile isWsByte).reverse).dropWhile isWsByte).reverse

/-- A UTF-8 continuation byte (bit pattern 10xxxxxx). -/
def isCont (b : Nat) : Bool := 128 ≤ b && b < 192

/-- Strict UTF-8 decoding of a byte list into characters, as
`bytes.decode()` performs it: none exactly when the bytes are not valid
UTF-8, which in the source raises a UnicodeDecodeError.  Overlong forms,
surrogates and code points above U+10FFFF are rejected, as in CPython. -/
def utf8Chars : List Nat → Option (List Char)
  | [] => some []
  | b :: rest =>
    if b < 128 then
      (utf8Chars rest).map (fun cs => Char.ofNat b :: cs)
    else if 194 ≤ b && b ≤ 223 then
      match rest with
      | c :: rest2 =>
        if isCont c then
          (utf8Chars rest2).map (fun cs => Char.ofNat ((b - 192) * 64 + (c - 128)) :: cs)
        else none
      | [] => none
    else if 224 ≤ b && b ≤ 239 then
      match rest with
      | c :: d :: rest2 =>
        if (if b = 224 then decide (160 ≤ c) && decide (c < 192)
            else if b = 237 then decide (128 ≤ c) && decide (c < 160)
            else isCont c) && isCont d then
          (utf8Chars rest2).map
            (fun cs => Char.ofNat (((b - 224) * 64 + (c - 128)) * 64 + (d - 128)) :: cs)
        else none
      | _ => none
    else if 240 ≤ b && b ≤ 244 then
      match rest with
      | c :: d :: e :: rest2 =>
        if (if b = 240 then decide (144 ≤ c) && decide (c < 192)
            else if b = 244 then decide (128 ≤ c) && decide (c < 144)
            else isCont c) && isCont d && isCont e then
          (utf8Chars rest2).map
            (fun cs => Char.ofNat ((((b - 240) * 64 + (c - 128)) * 64 + (d - 128)) * 64 + (e - 128)) :: cs)
        else none
      | _ => none
    else none

/-- Models `bytes.decode()` on a stripped line: strict UTF-8 to String. -/
def pyDecodeUtf8 (bs : List Nat) : Option String :=
  (utf8Chars bs).map (fun cs => String.mk cs)

/-- Models `bytes.decode(errors="replace")`: total; a byte that cannot
start a valid sequence, or a sequence with a bad continuation, yields a
U+FFFD replacement character and decoding resumes at the next byte.  The
fuel argument (one unit per consumed byte, initialised to the byte count)
only serves the termination argument. -/
def utf8ReplaceAux : Nat → List Nat → List Char
  | 0, _ => []
  | _, [] => []
  | fuel + 1, b :: rest =>
    if b < 128 then Char.ofNat b :: utf8ReplaceAux fuel rest
    else if 194 ≤ b && b ≤ 223 then
      match rest with
      | c :: rest2 =>
        if isCont c then Char.ofNat ((b - 192) * 64 + (c - 128)) :: utf8ReplaceAux fuel rest2
        else Char.ofNat 65533 :: utf8ReplaceAux fuel rest
      | [] => [Char.ofNat 65533]
    else if 224 ≤ b && b ≤ 239 then
      match rest with
      | c :: d :: rest2 =>
        if (if b = 224 then decide (160 ≤ c) && decide (c < 192)
            else if b = 237 then decide (128 ≤ c) && decide (c < 160)
            else isCont c) && isCont d then
          Char.ofNat (((b - 224) * 64 + (c - 128)) * 64 + (d - 128)) :: utf8ReplaceAux fuel rest2
        else Char.ofNat 65533 :: utf8ReplaceAux fuel rest
      | _ => Char.ofNat 65533 :: utf8ReplaceAux fuel rest
    else if 240 ≤ b && b ≤ 244 then
      match rest with
      | c :: d :: e :: rest2 =>
        if (if b = 240 then decide (144 ≤ c) && decide (c < 192)
            else if b = 244 then decide (128 ≤ c) && decide (c < 144)
            else isCont c) && isCont d && isCont e then
          Char.ofNat ((((b - 240) * 64 + (c - 128)) * 64 + (d - 128)) * 64 + (e - 128)) :: utf8ReplaceAux fuel rest2
        else Char.ofNat 65533 :: utf8ReplaceAux fuel rest
      | _ => Char.ofNat 65533 :: utf8ReplaceAux fuel rest
    else Char.ofNat 65533 :: utf8ReplaceAux fuel rest

/-- Total decoding with replacement, used by the stderr drain. -/
def pyDecodeReplace (bs : List Nat) : String := String.mk (utf8ReplaceAux bs.length bs)

/-- ASCII whitespace characters, for the str.rstrip() model. -/
def isWsChar (c : Char) : Bool := isWsByte c.toNat

/-- Models `str.rstrip()`: drop trailing whitespace characters. -/
def pyRstrip (s : String) : String :=
  String.mk (((s.toList.reverse).dropWhile isWsChar).reverse)

/-- JSON values as produced by json.loads.  Objects model Python dicts
(the harness only meets string keys; duplicate keys do not occur in the
exchanged messages).  The harness only exchanges integral numbers, so
numbers are modelled as integers. -/
inductive Json where
  | null
  | bool (b : Bool)
  | num (n : Int)
  | str (s : String)
  | arr (elements : List Json)
  | obj (fields : List (String × Json))

/-- Field access on a JSON object, none for non-objects or missing keys
(the observer used to inspect messages in the theorems below). -/
def jsonField (j : Json) (k : String) : Option Json :=
  match j with
  | .obj fields => fields.lookup k
  | _ => none

/-- One iteration of the polling loop of McpClient.recv, as seen from the
harness: either the one-second select slice elapsed with no data (and
proc.poll() returned the given value), or select reported readability and
os.read returned the given bytes — an empty chunk is end of stream, and
only then is the recorded poll value consulted, mirroring the source. -/
inductive IoEvent where
  | probeIdle (poll : Option Int)
  | dataChunk (bytes : List Nat) (poll : Option Int)

/-- The outcome of one McpClient.recv call.  `ok` records the parsed
frame together with the buffered bytes that remain in the call-local
buffer when recv returns (the source simply drops them); `closed` is the
EOFError carrying proc.poll(), len(buf) and the stderr tail; `timeout` is
the TimeoutError carrying len(buf); `decodeError` is the
UnicodeDecodeError raised by line.decode() that no except clause of recv
catches. -/
inductive RecvResult where
  | ok (msg : Json) (leftover : List Nat)
  | closed (poll : Option Int) (buffered : Nat) (stderrTail : List String)
  | timeout (buffered : Nat)
  | decodeError

/-- True exactly on the `closed` outcome. -/
def RecvResult.isClosed : RecvResult → Bool
  | .closed _ _ _ => true
  | _ => false

/-- True exactly on the `timeout` outcome. -/
def RecvResult.isTimeout : RecvResult → Bool
  | .timeout _ => true
  | _ => false

/-- Result of scanning the read buffer for a complete frame. -/
inductive ScanResult where
  | frame (msg : Json) (leftover : List Nat)
  | more (buffered : List Nat)
  | badBytes

/-- Streaming rendering of the inner framing loop of McpClient.recv:
`while b"\n" in buf: line, buf = buf.split(b"\n", 1); line = line.strip();
if line: try: return json.loads(line.decode()) except JSONDecodeError:
continue`.  The accumulator holds the bytes of the current line in
reverse; a line that strips to nothing, or whose decoded text json.loads
rejects, is dropped and scanning continues; a line whose bytes are not
valid UTF-8 raises the uncaught UnicodeDecodeError (badBytes). -/
def scanAux (loads : String → Option Json) (acc : List Nat) : List Nat → ScanResult
  | [] => .more acc.reverse
  | b :: bs =>
    if b = 10 then
      if (stripBytes acc.reverse).isEmpty then scanAux loads [] bs
      else
        match pyDecodeUtf8 (stripBytes acc.reverse) with
        | none => .badBytes
        | some s =>
          match loads s with
          | none => scanAux loads [] bs
          | some j => .frame j bs
    else scanAux loads (b :: acc) bs

/-- Scan a read buffer for its first complete, parseable frame. -/
def scanBuf (loads : String → Option Json) (buf : List Nat) : ScanResult :=
  scanAux loads [] buf

/-- The timeout of the harness, seconds (TIMEOUT = 30 in the source). -/
def TIMEOUT : Nat := 30

/-- The polling loop of McpClient.recv over an explicit event trace.
State: elapsed whole seconds `t` and the call-local read buffer `buf`.
The loop head checks the deadline; an idle probe with a non-null poll
raises EOFError with the exit code, len(buf) and the last ten stderr
lines; an idle probe with a live process costs one second; an empty
os.read chunk raises EOFError with the recorded poll value; otherwise the
chunk is appended to the buffer, which is scanned for a frame. -/
def recvLoop (loads : String → Option Json) (stderrLines : List String) :
    Nat → List Nat → List IoEvent → RecvResult
  | t, buf, evs =>
    if TIMEOUT ≤ t then .timeout buf.length
    else
      match evs with
      | [] => .timeout buf.length
      | .probeIdle (some code) :: _ =>
        .closed (some code) buf.length (lastN 10 stderrLines)
      | .probeIdle none :: rest => recvLoop loads stderrLines (t + 1) buf rest
      | .dataChunk [] poll :: _ => .closed poll buf.length (lastN 10 stderrLines)
      | .dataChunk (b :: bs) _ :: rest =>
        match scanBuf loads (buf ++ b :: bs) with
        | .frame msg leftover => .ok msg leftover
        | .more buf2 => recvLoop loads stderrLines t buf2 rest
        | .badBytes => .decodeError

/-- McpClient.recv: every call starts at time zero with an empty
call-local buffer (`buf = b""` in the source). -/
def recv (loads : String → Option Json) (stderrLines : List String)
    (evs : List IoEvent) : RecvResult :=
  recvLoop loads stderrLines 0 [] evs

/-- Replays a prefix of an event trace without ever finding a frame, an
exit or bad bytes, returning the buffer contents accumulated so far; used
to state what the byte count carried by a TimeoutError refers to. -/
def drainChunks (loads : String → Option Json) : List Nat → List IoEvent → Option (List Nat)
  | buf, [] => some buf
  | buf, .probeIdle none :: rest => drainChunks loads buf rest
  | _, .probeIdle (some _) :: _ => none
  | _, .dataChunk [] _ :: _ => none
  | buf, .dataChunk (b :: bs) _ :: rest =>
    match scanBuf loads (buf ++ b :: bs) with
    | .more buf2 => drainChunks loads buf2 rest
    | _ => none

/-- The JSON-RPC request object built by McpClient.call: jsonrpc and
method always, params and id only when given. -/
def buildMsg (method : String) (params : Option Json) (idv : Option Int) : Json :=
  .obj ([("jsonrpc", Json.str "2.0"), ("method", Json.str method)]
    ++ (match params with | some p => [("params", p)] | none => [])
    ++ (match idv with | some i => [("id", Json.num i)] | none => []))

/-- McpClient.call: send the request, then recv exactly when an id was
given (a notification awaits no response).  The first component is the
message written to stdin, the second the outcome of recv (none for a
notification).  Note that recv takes no notice of the request id. -/
def mcpCall (loads : String → Option Json) (stderrLines : List String)
    (evs : List IoEvent) (method : String) (params : Option Json)
    (idv : Option Int) : Json × Option RecvResult :=
  (buildMsg method params idv,
   if idv.isSome then some (recv loads stderrLines evs) else none)

/-- The Python exceptions relevant to McpClient.tool_call: the first
three are named in its except clause, TypeError is not and so escapes. -/
inductive PyErr where
  | keyError
  | indexError
  | jsonDecodeError
  | typeError

/-- Python subscripting `x[k]` with a string key: dict lookup (KeyError
when missing), TypeError on lists, strings and scalars. -/
def pyGetStr : Json → String → Except PyErr Json
  | .obj fields, k =>
    match fields.lookup k with
    | some v => .ok v
    | none => .error .keyError
  | _, _ => .error .typeError

/-- Python subscripting `x[i]` with an integer index: list element
(IndexError out of range), one-character string on strings, KeyError on
dicts (whose JSON keys are strings), TypeError on scalars. -/
def pyGetIdx : Json → Nat → Except PyErr Json
  | .arr xs, i =>
    match xs.get? i with
    | some v => .ok v
    | none => .error .indexError
  | .obj _, _ => .error .keyError
  | .str s, i =>
    match s.toList.get? i with
    | some c => .ok (.str (String.mk [c]))
    | none => .error .indexError
  | _, _ => .error .typeError

/-- `json.loads(text)` applied to an arbitrary value: parses strings
(JSONDecodeError on failure), raises TypeError on every non-string. -/
def pyLoads (loads : String → Option Json) : Json → Except PyErr Json
  | .str s =>
    match loads s with
    | some j => .ok j
    | none => .error .jsonDecodeError
  | _ => .error .typeError

/-- The extraction `json.loads(resp["result"]["content"][0]["text"])`
performed inside the try of McpClient.tool_call. -/
def unwrapPath (loads : String → Option Json) (resp : Json) : Except PyErr Json :=
  pyGetStr resp "result" >>= fun r =>
  pyGetStr r "content" >>= fun c =>
  pyGetIdx c 0 >>= fun el =>
  pyGetStr el "text" >>= fun tx =>
  pyLoads loads tx

/-- McpClient.tool_call, given the response envelope already returned by
call: on success the parsed inner document together with the raw
envelope; a KeyError, IndexError or JSONDecodeError falls back to the
raw envelope twice; a TypeError has no handler and propagates. -/
def toolCallUnwrap (loads : String → Option Json) (resp : Json) :
    Except PyErr (Json × Json) :=
  match unwrapPath loads resp with
  | .ok j => .ok (j, resp)
  | .error .keyError => .ok (resp, resp)
  | .error .indexError => .ok (resp, resp)
  | .error .jsonDecodeError => .ok (resp, resp)
  | .error .typeError => .error .typeError

/-- The RuntimeError raised when the server exits during bootstrap:
carries the exit code and the last twenty stderr lines. -/
structure BootFail where
  exitCode : Int
  stderrTail : List String

/-- The bootstrap loop of McpClient.__init__: `for _ in range(20)`, one
second of sleep per iteration, then proc.poll(); a non-null poll raises
RuntimeError with the code and stderr tail.  `probes i` is the poll
result observed at iteration `i`. -/
def bootstrapLoop (probes : Nat → Option Int) (stderrLines : List String) :
    Nat → Nat → Except BootFail Unit
  | _, 0 => .ok ()
  | i, fuel + 1 =>
    match probes i with
    | some c => .error ⟨c, lastN 20 stderrLines⟩
    | none => bootstrapLoop probes stderrLines (i + 1) fuel

/-- The whole twenty-probe grace window. -/
def bootstrap (probes : Nat → Option Int) (stderrLines : List String) :
    Except BootFail Unit :=
  bootstrapLoop probes stderrLines 0 20

/-- One item seen by the stderr drain thread while iterating
`for line in self.proc.stderr`: a byte line, or a read error raised by
the iteration itself (caught by the bare except of _drain_stderr). -/
inductive ErrLine where
  | bytesLine (bs : List Nat)
  | readFail

/-- McpClient._drain_stderr: append each line, decoded permissively and
rstripped, to the buffer; the first read error ends the loop silently;
end of stream ends it silently too.  The function is total: no outcome
of the drain is an error. -/
def drainStderr : List ErrLine → List String → List String
  | [], acc => acc
  | .bytesLine bs :: rest, acc =>
    drainStderr rest (acc ++ [pyRstrip (pyDecodeReplace bs)])
  | .readFail :: _, acc => acc

/-- The byte lines delivered before the first read error. -/
def linesBeforeFail : List ErrLine → List (List Nat)
  | [] => []
  | .bytesLine bs :: rest => bs :: linesBeforeFail rest
  | .readFail :: _ => []

/-- The subject process as the supervisor sees it. -/
structure SubjectProc where
  alive : Bool
  stdinOpen : Bool
  termSent : Bool

/-- The individual teardown actions of McpClient.close, in order. -/
inductive TdAction where
  | stdinClose
  | terminate
  | waitUpTo (secs : Nat)
  | kill

/-- `self.proc.stdin.close()` under `try: ... except: pass`. -/
def stdinCloseOp (s : SubjectProc) : SubjectProc := { s with stdinOpen := false }

/-- `self.proc.terminate()`: send the graceful signal. -/
def terminateOp (s : SubjectProc) : SubjectProc := { s with termSent := true }

/-- `self.proc.wait(timeout=5)`: returns once the process is gone, which
happens within the bound when it was already dead or the terminate takes
effect in time (the oracle exitsWithin5); otherwise raises
TimeoutExpired, modelled as the error case. -/
def waitOp (s : SubjectProc) (exitsWithin5 : Bool) : Except Unit SubjectProc :=
  if !s.alive || exitsWithin5 then .ok { s with alive := false } else .error ()

/-- `self.proc.kill()`: forced death. -/
def killOp (s : SubjectProc) : SubjectProc := { s with alive := false }

/-- McpClient.close: close stdin (exceptions swallowed), terminate, wait
up to five seconds, kill on any wait failure.  Returns the final process
state and the trace of actions taken. -/
def closeProc (s : SubjectProc) (exitsWithin5 : Bool) : SubjectProc × List TdAction :=
  let s1 := stdinCloseOp s
  let s2 := terminateOp s1
  match waitOp s2 exitsWithin5 with
  | .ok s3 => (s3, [.stdinClose, .terminate, .waitUpTo 5])
  | .error _ => (killOp s2, [.stdinClose, .terminate, .waitUpTo 5, .kill])

/-- The `try: ...scenarios... finally: client.close()` of main(): the
body runs first, producing a normal result or an uncaught exception and
a process state; close then runs on that state unconditionally, and the
body outcome (exception included) is passed along. -/
def runWithTeardown (body : SubjectProc → Except RecvResult Unit × SubjectProc)
    (exitsWithin5 : Bool) (s : SubjectProc) :
    Except RecvResult Unit × SubjectProc × List TdAction :=
  let r := body s
  let fin := closeProc r.2 exitsWithin5
  (r.1, fin.1, fin.2)

/-- The global pass and fail counters of the harness. -/
structure Tally where
  passes : Nat
  fails : Nat

/-- log_pass: increment the pass counter only. -/
def logPass (c : Tally) : Tally := { c with passes := c.passes + 1 }

/-- log_fail: increment the fail counter only. -/
def logFail (c : Tally) : Tally := { c with fails := c.fails + 1 }

/-- One observable action of the body of main(), in program order: an
assertion that passed (a log_pass call), an assertion that failed (a
log_fail call), or a transport exception raised out of client.call /
client.recv — for which main() has no handler. -/
inductive StepEvent where
  | assertPass
  | assertFail
  | transportRaise (r : RecvResult)

/-- True exactly on an uncaught transport exception. -/
def StepEvent.isRaise : StepEvent → Bool
  | .transportRaise _ => true
  | _ => false

/-- The sequencing of the try-block of main(): assertions fold into the
tally in order; the first uncaught exception abandons every remaining
step and propagates (no except clause exists between the scenario steps
and the finally). -/
def runSteps : List StepEvent → Tally → Tally × Option RecvResult
  | [], c => (c, none)
  | .assertPass :: rest, c => runSteps rest (logPass c)
  | .assertFail :: rest, c => runSteps rest (logFail c)
  | .transportRaise r :: _, c => (c, some r)

/-- The process exit status of one harness run: after a normal pass over
all steps, `sys.exit(1 if FAIL > 0 else 0)`; when an exception escapes
main(), the interpreter exits with status 1 without reaching sys.exit. -/
def mainExit (events : List StepEvent) : Nat :=
  match runSteps events ⟨0, 0⟩ with
  | (c, none) => if 0 < c.fails then 1 else 0
  | (_, some _) => 1

/-- A json.loads stand-in that recognizes no string: every line is
unparsable. -/
def loadsNone : String → Option Json := fun _ => none

/-- A json.loads stand-in under which the single frame "R" parses to a
response object carrying id 999. -/
def loadsC1 : String → Option Json := fun s =>
  if s = "R" then some (Json.obj [("id", Json.num 999)]) else none

/-- A json.loads stand-in with two one-letter frames. -/
def loadsAB : String → Option Json := fun s =>
  if s = "A" then some (Json.str "A")
  else if s = "B" then some (Json.str "B")
  else none

/-- A json.loads stand-in under which the tool payload "P" parses. -/
def loadsP : String → Option Json := fun s =>
  if s = "P" then some (Json.obj [("task_id", Json.str "t1")]) else none

/-- A well-shaped tools/call response envelope whose first content
element has the text payload "P". -/
def respHappy : Json :=
  Json.obj [("jsonrpc", Json.str "2.0"),
    ("result", Json.obj [("content",
      Json.arr [Json.obj [("type", Json.str "text"), ("text", Json.str "P")]]),
      ("isError", Json.bool false)])]

/-- The parsed payload of respHappy under loadsP. -/
def payloadP : Json := Json.obj [("task_id", Json.str "t1")]

/-- An envelope whose text field is a number instead of a string. -/
def respBadText : Json :=
  Json.obj [("result", Json.obj [("content",
    Json.arr [Json.obj [("text", Json.num 5)]])])]

/-- Skipping one newline-terminated line: scanning a buffer that starts
with a complete line reduces to the dispatch on that stripped line. -/
theorem scanAux_line (loads : String → Option Json) (L : List Nat)
    (hL : ∀ b ∈ L, b ≠ 10) (acc bs : List Nat) :
    scanAux loads acc (L ++ 10 :: bs) =
      (if (stripBytes (acc.reverse ++ L)).isEmpty then scanAux loads [] bs
       else
        match pyDecodeUtf8 (stripBytes (acc.reverse ++ L)) with
        | none => ScanResult.badBytes
        | some s =>
          match loads s with
          | none => scanAux loads [] bs
          | some j => ScanResult.frame j bs) := by
  induction L generalizing acc with
  | nil => simp [scanAux]
  | cons b L ih =>
    have hb : b ≠ 10 := hL b (List.mem_cons_self b L)
    have hrest : ∀ x ∈ L, x ≠ 10 := fun x hx => hL x (List.mem_cons_of_mem b hx)
    have hstep : scanAux loads acc ((b :: L) ++ 10 :: bs) =
        scanAux loads (b :: acc) (L ++ 10 :: bs) := by
      simp [scanAux, hb]
    rw [hstep, ih hrest (b :: acc)]
    simp [List.append_assoc]

/-- A TimeoutError reports the byte count of the buffer accumulated by a
frameless prefix of the trace. -/
theorem recvLoop_timeout_source (loads : String → Option Json) (stderrLines : List String) :
    ∀ (evs : List IoEvent) (t : Nat) (buf : List Nat) (n : Nat),
      recvLoop loads stderrLines t buf evs = RecvResult.timeout n →
      ∃ pre rest buf2, evs = pre ++ rest ∧ drainChunks loads buf pre = some buf2 ∧
        n = buf2.length := by
  intro evs
  induction evs with
  | nil =>
    intro t buf n h
    simp only [recvLoop] at h
    have hn : n = buf.length := by
      by_cases ht : TIMEOUT ≤ t
      · rw [if_pos ht] at h; injection h with h; exact h.symm
      · rw [if_neg ht] at h; injection h with h; exact h.symm
    exact ⟨[], [], buf, rfl, rfl, hn⟩
  | cons e rest ih =>
    intro t buf n h
    cases e with
    | probeIdle poll =>
      cases poll with
      | some c =>
        by_cases ht : TIMEOUT ≤ t
        · simp only [recvLoop, if_pos ht] at h
          injection h with h
          exact ⟨[], IoEvent.probeIdle (some c) :: rest, buf, rfl, rfl, h.symm⟩
        · simp only [recvLoop, if_neg ht] at h
          exact RecvResult.noConfusion h
      | none =>
        by_cases ht : TIMEOUT ≤ t
        · simp only [recvLoop, if_pos ht] at h
          injection h with h
          exact ⟨[], IoEvent.probeIdle none :: rest, buf, rfl, rfl, h.symm⟩
        · simp only [recvLoop, if_neg ht] at h
          obtain ⟨pre, rest2, buf2, he, hd, hn⟩ := ih (t + 1) buf n h
          exact ⟨IoEvent.probeIdle none :: pre, rest2, buf2, by simp [he],
            by simpa [drainChunks] using hd, hn⟩
    | dataChunk bytes poll =>
      cases bytes with
      | nil =>
        by_cases ht : TIMEOUT ≤ t
        · simp only [recvLoop, if_pos ht] at h
          injection h with h
          exact ⟨[], IoEvent.dataChunk [] poll :: rest, buf, rfl, rfl, h.symm⟩
        · simp only [recvLoop, if_neg ht] at h
          exact RecvResult.noConfusion h
      | cons b bs =>
        by_cases ht : TIMEOUT ≤ t
        · simp only [recvLoop, if_pos ht] at h
          injection h with h
          exact ⟨[], IoEvent.dataChunk (b :: bs) poll :: rest, buf, rfl, rfl, h.symm⟩
        · simp only [recvLoop, if_neg ht] at h
          cases hscan : scanBuf loads (buf ++ b :: bs) with
          | frame msg leftover => rw [hscan] at h; exact RecvResult.noConfusion h
          | more buf2 =>
            rw [hscan] at h
            obtain ⟨pre, rest2, buf3, he, hd, hn⟩ := ih t buf2 n h
            exact ⟨IoEvent.dataChunk (b :: bs) poll :: pre, rest2, buf3, by simp [he],
              by simp [drainChunks, hscan, hd], hn⟩
          | badBytes => rw [hscan] at h; exact RecvResult.noConfusion h

/-- A raise-free step list is fully folded into the tally. -/
theorem runSteps_no_raise : ∀ (events : List StepEvent) (c : Tally),
    (∀ x ∈ events, x.isRaise = false) → (runSteps events c).2 = none := by
  intro events
  induction events with
  | nil => intro c _; rfl
  | cons e rest ih =>
    intro c h
    have h1 := h e (List.mem_cons_self e rest)
    have h2 : ∀ x ∈ rest, x.isRaise = false :=
      fun x hx => h x (List.mem_cons_of_mem e hx)
    cases e with
    | assertPass => exact ih _ h2
    | assertFail => exact ih _ h2
    | transportRaise r => simp [StepEvent.isRaise] at h1

/-- The first uncaught transport exception freezes the tally at the
value reached so far and abandons every later step. -/
theorem runSteps_raise_split : ∀ (pre : List StepEvent) (r : RecvResult)
    (post : List StepEvent) (c : Tally),
    (∀ x ∈ pre, x.isRaise = false) →
    runSteps (pre ++ StepEvent.transportRaise r :: post) c = ((runSteps pre c).1, some r) := by
  intro pre
  induction pre with
  | nil => intro r post c _; rfl
  | cons e rest ih =>
    intro r post c h
    have h1 := h e (List.mem_cons_self e rest)
    have h2 : ∀ x ∈ rest, x.isRaise = false :=
      fun x hx => h x (List.mem_cons_of_mem e hx)
    cases e with
    | assertPass => simpa [runSteps] using ih r post (logPass c) h2
    | assertFail => simpa [runSteps] using ih r post (logFail c) h2
    | transportRaise q => simp [StepEvent.isRaise] at h1

/-- The bootstrap loop succeeds exactly when every probe in its window
reports the process alive. -/
theorem bootstrapLoop_ok_iff (probes : Nat → Option Int) (stderrLines : List String) :
    ∀ (fuel i : Nat), bootstrapLoop probes stderrLines i fuel = Except.ok () ↔
      ∀ j, i ≤ j → j < i + fuel → probes j = none := by
  intro fuel
  induction fuel with
  | zero =>
    intro i
    constructor
    · intro _ j h1 h2
      exact absurd h2 (by omega)
    · intro _; rfl
  | succ fuel ih =>
    intro i
    cases hp : probes i with
    | some c =>
      simp only [bootstrapLoop, hp]
      constructor
      · intro h; exact absurd h (by simp)
      · intro hall
        have hh := hall i (le_refl i) (by omega)
        simp [hp] at hh
    | none =>
      have hstep : bootstrapLoop probes stderrLines i (fuel + 1) =
          bootstrapLoop probes stderrLines (i + 1) fuel := by
        simp [bootstrapLoop, hp]
      rw [hstep, ih (i + 1)]
      constructor
      · intro hall j h1 h2
        rcases Nat.eq_or_lt_of_le h1 with rfl | hlt
        · exact hp
        · exact hall j hlt (by omega)
      · intro hall j h1 h2
        exact hall j (by omega) (by omega)

/-- A bootstrap failure carries the stderr tail and the exit code of the
first probe that saw the process gone. -/
theorem bootstrapLoop_error_spec (probes : Nat → Option Int) (stderrLines : List String) :
    ∀ (fuel i : Nat) (e : BootFail),
      bootstrapLoop probes stderrLines i fuel = Except.error e →
      e.stderrTail = lastN 20 stderrLines ∧
      ∃ j, i ≤ j ∧ j < i + fuel ∧ probes j = some e.exitCode ∧
        ∀ k, i ≤ k → k < j → probes k = none := by
  intro fuel
  induction fuel with
  | zero =>
    intro i e h
    simp [bootstrapLoop] at h
  | succ fuel ih =>
    intro i e h
    cases hp : probes i with
    | some c =>
      simp only [bootstrapLoop, hp] at h
      injection h with h
      subst h
      exact ⟨rfl, i, le_refl i, by omega, hp, fun k h1 h2 => absurd h2 (by omega)⟩
    | none =>
      simp only [bootstrapLoop, hp] at h
      obtain ⟨ht, j, h1, h2, h3, h4⟩ := ih (i + 1) e h
      refine ⟨ht, j, by omega, by omega, h3, ?_⟩
      intro k hk1 hk2
      rcases Nat.eq_or_lt_of_le hk1 with rfl | hlt
      · exact hp
      · exact h4 k hlt hk2

/-- Buffer scanning only steps into a nonempty chunk when the deadline
has not passed; a scan that leaves the buffer frameless continues the
loop on the remaining trace. -/
theorem recvLoop_chunk_more (loads : String → Option Json) (stderrLines : List String) :
    ∀ (t : Nat) (buf buf2 : List Nat) (b : Nat) (bs : List Nat) (poll : Option Int)
      (evs : List IoEvent), ¬ TIMEOUT ≤ t →
      scanBuf loads (buf ++ b :: bs) = ScanResult.more buf2 →
      recvLoop loads stderrLines t buf (IoEvent.dataChunk (b :: bs) poll :: evs) =
        recvLoop loads stderrLines t buf2 evs := by
  intro t buf buf2 b bs poll evs ht hscan
  simp only [recvLoop, if_neg ht, hscan]

/-- C1 (amended): McpClient.call performs no id correlation at all — the
response it returns is exactly the first parseable frame recv produces
from the stream, whatever id that frame carries; the request is sent
with the given id, and a notification (no id) awaits no response. -/
theorem call_no_id_correlation (loads : String → Option Json) (stderrLines : List String)
    (evs : List IoEvent) (method : String) (params : Option Json) (i : Int) :
    (mcpCall loads stderrLines evs method params (some i)).2 =
      some (recv loads stderrLines evs) ∧
    jsonField (mcpCall loads stderrLines evs method params (some i)).1 "id" =
      some (Json.num i) ∧
    (mcpCall loads stderrLines evs method params none).2 = none := by
  refine ⟨rfl, ?_, rfl⟩
  cases params <;> rfl

/-- C1 counterexample: a request sent with id 1 receives, without any
error, the first frame of the stream, which carries id 999 — the
transport returns a response with a mismatched id silently. -/
theorem mismatched_id_returned_silently :
    (mcpCall loadsC1 [] [IoEvent.dataChunk [82, 10] none] "tools/call" none (some 1)).2 =
      some (RecvResult.ok (Json.obj [("id", Json.num 999)]) []) ∧
    jsonField (Json.obj [("id", Json.num 999)]) "id" = some (Json.num 999) ∧
    jsonField (buildMsg "tools/call" none (some 1)) "id" = some (Json.num 1) :=
  ⟨rfl, rfl, rfl⟩

/-- C2 (amended): an assertion-level mismatch is recorded in the tally
and execution proceeds, but an uncaught transport exception raised
inside a scenario step freezes the tally as it was, skips every
subsequent step, and propagates (only the finally-teardown still runs);
a raise-free step list is processed to the end. -/
theorem scenario_step_exception_policy (pre post : List StepEvent) (r : RecvResult)
    (c : Tally) (h : ∀ x ∈ pre, x.isRaise = false) :
    runSteps (pre ++ StepEvent.transportRaise r :: post) c = ((runSteps pre c).1, some r) ∧
    (runSteps pre c).2 = none :=
  ⟨runSteps_raise_split pre r post c h, runSteps_no_raise pre c h⟩

theorem scenario_step_exception_policy_witness :
    runSteps ([StepEvent.assertFail] ++
        StepEvent.transportRaise (RecvResult.timeout 3) :: [StepEvent.assertPass]) ⟨0, 0⟩ =
      ((runSteps [StepEvent.assertFail] ⟨0, 0⟩).1, some (RecvResult.timeout 3)) :=
  (scenario_step_exception_policy [StepEvent.assertFail] [StepEvent.assertPass]
    (RecvResult.timeout 3) ⟨0, 0⟩
    (by simp [List.forall_mem_cons, StepEvent.isRaise])).1

/-- C2 counterexample: a transport timeout in the first step is not
recorded as a failed assertion (the fail counter stays 0) and the
following step never executes (the pass counter stays 0): the exception
aborts the remaining scenario steps. -/
theorem uncaught_timeout_aborts_run :
    runSteps [StepEvent.transportRaise (RecvResult.timeout 0), StepEvent.assertPass] ⟨0, 0⟩ =
      (⟨0, 0⟩, some (RecvResult.timeout 0)) := rfl

/-- C3 (amended): each assertion increments exactly one of the two
counters, and on a run with no uncaught exception the exit status is 0
exactly when the fail counter is 0 (and 1 when it is positive); a run
aborted by an uncaught exception exits 1 regardless of the counters. -/
theorem exit_code_matches_fail_count (events : List StepEvent)
    (h : ∀ x ∈ events, x.isRaise = false) :
    (∀ c, logPass c = ⟨c.passes + 1, c.fails⟩) ∧
    (∀ c, logFail c = ⟨c.passes, c.fails + 1⟩) ∧
    (mainExit events = 0 ↔ (runSteps events ⟨0, 0⟩).1.fails = 0) ∧
    ((runSteps events ⟨0, 0⟩).1.fails ≠ 0 → mainExit events = 1) := by
  have h2 := runSteps_no_raise events ⟨0, 0⟩ h
  rcases hr : runSteps events ⟨0, 0⟩ with ⟨c, ex⟩
  rw [hr] at h2
  have hex : ex = none := h2
  subst hex
  have hm : mainExit events = if 0 < c.fails then 1 else 0 := by
    simp [mainExit, hr]
  refine ⟨fun c => rfl, fun c => rfl, ?_, ?_⟩
  · rw [hm]
    show (if 0 < c.fails then 1 else 0) = 0 ↔ c.fails = 0
    rcases Nat.eq_zero_or_pos c.fails with h0 | h0
    · simp [h0]
    · rw [if_pos h0]
      constructor
      · intro hc
        exact absurd hc (by omega)
      · intro hc
        omega
  · show c.fails ≠ 0 → mainExit events = 1
    intro hne
    rw [hm]
    split_ifs with hf
    · rfl
    · omega

theorem exit_code_matches_fail_count_witness :
    mainExit [StepEvent.assertPass, StepEvent.assertFail] = 1 :=
  (exit_code_matches_fail_count [StepEvent.assertPass, StepEvent.assertFail]
    (by simp [List.forall_mem_cons, StepEvent.isRaise])).2.2.2 (by decide)

/-- C3 counterexample: a run aborted by an uncaught transport timeout
exits with status 1 although its fail counter is 0 — the exit status is
not equivalent to "at least one assertion failed". -/
theorem abnormal_exit_with_zero_failures :
    mainExit [StepEvent.transportRaise (RecvResult.timeout 0)] = 1 ∧
    (runSteps [StepEvent.transportRaise (RecvResult.timeout 0)] ⟨0, 0⟩).1.fails = 0 :=
  ⟨rfl, rfl⟩

/-- C4 (amended): an idle probe that sees the process gone fails the
call with the EOFError carrying the exit code, the buffered byte count
and the last ten stderr lines; an empty read (closed stdout) fails it
with the EOFError carrying the poll value and the same diagnostics; and
a TimeoutError reports exactly the byte count accumulated by the
frameless trace prefix processed before the deadline.  (A buffered line
that is not valid UTF-8 instead raises an uncaught UnicodeDecodeError —
see the counterexample.) -/
theorem recv_failure_diagnostics (loads : String → Option Json) (stderrLines : List String) :
    (∀ t buf code rest, t < TIMEOUT →
        recvLoop loads stderrLines t buf (IoEvent.probeIdle (some code) :: rest) =
          RecvResult.closed (some code) buf.length (lastN 10 stderrLines)) ∧
    (∀ t buf poll rest, t < TIMEOUT →
        recvLoop loads stderrLines t buf (IoEvent.dataChunk [] poll :: rest) =
          RecvResult.closed poll buf.length (lastN 10 stderrLines)) ∧
    (∀ evs t buf n, recvLoop loads stderrLines t buf evs = RecvResult.timeout n →
        ∃ pre rest buf2, evs = pre ++ rest ∧ drainChunks loads buf pre = some buf2 ∧
          n = buf2.length) := by
  refine ⟨?_, ?_, recvLoop_timeout_source loads stderrLines⟩
  · intro t buf code rest ht
    have hne : ¬ TIMEOUT ≤ t := by omega
    simp only [recvLoop, if_neg hne]
  · intro t buf poll rest ht
    have hne : ¬ TIMEOUT ≤ t := by omega
    simp only [recvLoop, if_neg hne]

theorem recv_failure_diagnostics_witness :
    recvLoop loadsNone ["e1"] 0 [7] [IoEvent.probeIdle (some 9)] =
      RecvResult.closed (some 9) 1 (lastN 10 ["e1"]) :=
  (recv_failure_diagnostics loadsNone ["e1"]).1 0 [7] 9 [] (by decide)

/-- C4 counterexample: the subject exits without ever delivering a
complete frame (its only output is the undecodable line 0xFF), yet recv
fails with the uncaught UnicodeDecodeError, not with the closed-transport
EOFError carrying the exit code. -/
theorem recv_exit_after_bad_bytes_not_closed :
    recv loadsNone [] [IoEvent.dataChunk [255, 10] none, IoEvent.dataChunk [] (some 0)] =
      RecvResult.decodeError ∧
    (recv loadsNone [] [IoEvent.dataChunk [255, 10] none,
      IoEvent.dataChunk [] (some 0)]).isClosed = false :=
  ⟨rfl, rfl⟩

/-- C5 (amended): a newline-terminated line that strips to nothing, or
whose stripped bytes decode as UTF-8 but do not parse as JSON, is
skipped and recv keeps waiting on the remaining stream within the same
deadline; a line whose bytes are not valid UTF-8 instead fails the call
(see the counterexample). -/
theorem recv_skips_blank_and_unparsable_lines (loads : String → Option Json)
    (stderrLines : List String) :
    (∀ L bs, (∀ b ∈ L, b ≠ 10) → stripBytes L = [] →
        scanBuf loads (L ++ 10 :: bs) = scanBuf loads bs) ∧
    (∀ L bs s, (∀ b ∈ L, b ≠ 10) → pyDecodeUtf8 (stripBytes L) = some s →
        loads s = none → scanBuf loads (L ++ 10 :: bs) = scanBuf loads bs) ∧
    (∀ t poll evs L, t < TIMEOUT → (∀ b ∈ L, b ≠ 10) →
        (stripBytes L = [] ∨ ∃ s, pyDecodeUtf8 (stripBytes L) = some s ∧ loads s = none) →
        recvLoop loads stderrLines t [] (IoEvent.dataChunk (L ++ [10]) poll :: evs) =
          recvLoop loads stderrLines t [] evs) := by
  have key : ∀ L bs, (∀ b ∈ L, b ≠ 10) →
      (stripBytes L = [] ∨ ∃ s, pyDecodeUtf8 (stripBytes L) = some s ∧ loads s = none) →
      scanBuf loads (L ++ 10 :: bs) = scanBuf loads bs := by
    intro L bs hL hskip
    have hline := scanAux_line loads L hL [] bs
    simp only [List.reverse_nil, List.nil_append] at hline
    unfold scanBuf
    rw [hline]
    rcases hskip with hempty | ⟨s, hdec, hparse⟩
    · simp [hempty]
    · by_cases he : (stripBytes L).isEmpty
      · simp [he]
      · simp [he, hdec, hparse]
  refine ⟨fun L bs hL hs => key L bs hL (Or.inl hs),
          fun L bs s hL h1 h2 => key L bs hL (Or.inr ⟨s, h1, h2⟩), ?_⟩
  intro t poll evs L ht hL hskip
  have hne : ¬ TIMEOUT ≤ t := by omega
  cases L with
  | nil =>
    simp only [List.nil_append]
    refine recvLoop_chunk_more loads stderrLines t [] [] 10 [] poll evs hne ?_
    have hkey := key [] [] hL hskip
    simp only [List.nil_append] at hkey ⊢
    rw [hkey]
    rfl
  | cons a L2 =>
    simp only [List.cons_append]
    refine recvLoop_chunk_more loads stderrLines t [] [] a (L2 ++ [10]) poll evs hne ?_
    have hkey := key (a :: L2) [] hL hskip
    simp only [List.cons_append, List.nil_append] at hkey ⊢
    rw [hkey]
    rfl

theorem recv_skips_blank_and_unparsable_lines_witness :
    scanBuf loadsNone ([32] ++ 10 :: [65]) = scanBuf loadsNone [65] :=
  ((recv_skips_blank_and_unparsable_lines loadsNone []).1) [32] [65]
    (by decide) (by rfl)

/-- C5 counterexample: the newline-terminated line 0xFF does not parse
as JSON, but instead of being skipped (which would leave recv waiting
and eventually timing out) it fails the whole call with the uncaught
UnicodeDecodeError from line.decode(). -/
theorem recv_undecodable_line_fails_call :
    recv loadsNone [] [IoEvent.dataChunk [255, 10] none] = RecvResult.decodeError ∧
    (recv loadsNone [] [IoEvent.dataChunk [255, 10] none]).isTimeout = false :=
  ⟨rfl, rfl⟩

/-- C6 (confirmed): whatever the body of the try-block produces — a
normal finish or an uncaught exception — the teardown of McpClient.close
runs: stdin is closed, the terminate signal is sent, the bounded
five-second wait happens, the process is force-killed exactly when it
was still alive and did not exit within the bound, and the final process
state is never alive; the body outcome is passed through unchanged. -/
theorem teardown_runs_on_every_path (body : SubjectProc → Except RecvResult Unit × SubjectProc)
    (exitsWithin5 : Bool) (s : SubjectProc) :
    (runWithTeardown body exitsWithin5 s).1 = (body s).1 ∧
    (runWithTeardown body exitsWithin5 s).2.1.alive = false ∧
    (runWithTeardown body exitsWithin5 s).2.1.stdinOpen = false ∧
    (runWithTeardown body exitsWithin5 s).2.1.termSent = true ∧
    (runWithTeardown body exitsWithin5 s).2.2 =
      [TdAction.stdinClose, TdAction.terminate, TdAction.waitUpTo 5] ++
        (if (body s).2.alive && !exitsWithin5 then [TdAction.kill] else []) := by
  rcases hb : body s with ⟨r, s1⟩
  rcases s1 with ⟨a, so, ts⟩
  cases a <;> cases exitsWithin5 <;>
    simp [runWithTeardown, closeProc, waitOp, stdinCloseOp, terminateOp, killOp, hb]

/-- C7 (confirmed): bootstrap fails exactly when some probe of the
twenty-probe grace window sees the process exited, the failure carries
the exit code seen by the first such probe together with the last
(up to) twenty stderr lines, and bootstrap succeeds exactly when the
process stays alive through the whole window. -/
theorem bootstrap_fails_iff_early_exit (probes : Nat → Option Int) (stderrLines : List String) :
    (bootstrap probes stderrLines = Except.ok () ↔ ∀ i, i < 20 → probes i = none) ∧
    (∀ e, bootstrap probes stderrLines = Except.error e →
      e.stderrTail = lastN 20 stderrLines ∧
      ∃ i, i < 20 ∧ probes i = some e.exitCode ∧ ∀ j, j < i → probes j = none) := by
  constructor
  · rw [show bootstrap probes stderrLines = bootstrapLoop probes stderrLines 0 20 from rfl,
      bootstrapLoop_ok_iff probes stderrLines 20 0]
    constructor
    · intro hall i hi
      exact hall i (by omega) (by omega)
    · intro hall j h1 h2
      exact hall j (by omega)
  · intro e he
    obtain ⟨ht, j, h1, h2, h3, h4⟩ := bootstrapLoop_error_spec probes stderrLines 20 0 e he
    exact ⟨ht, j, by omega, h3, fun k hk => h4 k (by omega) hk⟩

theorem bootstrap_fails_iff_early_exit_witness :
    bootstrap (fun _ => none) [] = Except.ok () :=
  ((bootstrap_fails_iff_early_exit (fun _ => none) []).1).mpr (fun _ _ => rfl)

/-- C8 (amended): when the chained extraction of
resp["result"]["content"][0]["text"] parses, tool_call returns the
parsed inner document with the raw envelope alongside; a KeyError,
IndexError or JSONDecodeError along the chain falls back to the raw
envelope (returned twice); every successful return carries the raw
envelope in the second position; but a TypeError — e.g. a text field
that is not a string — is not caught and propagates (see the
counterexample). -/
theorem toolCall_unwrap_shapes (loads : String → Option Json) (resp : Json) :
    (∀ j, unwrapPath loads resp = Except.ok j →
      toolCallUnwrap loads resp = Except.ok (j, resp)) ∧
    (∀ e, unwrapPath loads resp = Except.error e → e ≠ PyErr.typeError →
      toolCallUnwrap loads resp = Except.ok (resp, resp)) ∧
    (unwrapPath loads resp = Except.error PyErr.typeError →
      toolCallUnwrap loads resp = Except.error PyErr.typeError) ∧
    (∀ p, toolCallUnwrap loads resp = Except.ok p → p.2 = resp) := by
  refine ⟨?_, ?_, ?_, ?_⟩
  · intro j hj
    simp [toolCallUnwrap, hj]
  · intro e he hne
    cases e with
    | keyError => simp [toolCallUnwrap, he]
    | indexError => simp [toolCallUnwrap, he]
    | jsonDecodeError => simp [toolCallUnwrap, he]
    | typeError => exact absurd rfl hne
  · intro he
    simp [toolCallUnwrap, he]
  · intro p hp
    cases hu : unwrapPath loads resp with
    | ok j =>
      simp [toolCallUnwrap, hu] at hp
      simp [← hp]
    | error e =>
      cases e <;> simp [toolCallUnwrap, hu] at hp <;> simp [← hp]

theorem toolCall_unwrap_shapes_witness :
    toolCallUnwrap loadsP respHappy = Except.ok (payloadP, respHappy) :=
  (toolCall_unwrap_shapes loadsP respHappy).1 payloadP rfl

/-- C8 counterexample: an envelope whose text field holds the number 5
has its payload present but unparsable (json.loads rejects non-strings
with a TypeError); instead of falling back to the raw envelope,
tool_call raises the uncaught TypeError. -/
theorem toolCall_nonstring_text_raises :
    toolCallUnwrap loadsNone respBadText = Except.error PyErr.typeError := rfl

/-- C9 (confirmed): the stderr drain is a total function of the stream —
no input makes it fail; it appends, in order, one permissively decoded
and rstripped entry per byte line delivered before the first read error,
and ends silently at the first read error or at end of stream. -/
theorem drain_appends_all_lines_silently : ∀ (items : List ErrLine) (acc : List String),
    drainStderr items acc =
      acc ++ (linesBeforeFail items).map (fun bs => pyRstrip (pyDecodeReplace bs)) := by
  intro items
  induction items with
  | nil => intro acc; simp [drainStderr, linesBeforeFail]
  | cons e rest ih =>
    intro acc
    cases e with
    | bytesLine bs => simp [drainStderr, linesBeforeFail, ih]
    | readFail => simp [drainStderr, linesBeforeFail]

/-- C10 (confirmed): every recv call starts from an empty call-local
buffer, so bytes buffered beyond the returned frame are unavailable to
later calls: a chunk carrying the two frames "A" and "B" yields frame
"A" with the bytes of "B" left in the discarded buffer, and a following
recv on the rest of the stream times out instead of returning "B". -/
theorem recv_buffer_is_call_local (loads : String → Option Json) (stderrLines : List String) :
    (∀ evs, recv loads stderrLines evs = recvLoop loads stderrLines 0 [] evs) ∧
    recv loadsAB [] [IoEvent.dataChunk [65, 10, 66, 10] none] =
      RecvResult.ok (Json.str "A") [66, 10] ∧
    recv loadsAB [] [] = RecvResult.timeout 0 :=
  ⟨fun _ => rfl, rfl, rfl⟩
